import Mathlib

/-!
# A shallow embedding of the py-earth estimator facade

This file embeds the `Earth` estimator of `pyearth/earth.py` (input scrubbing,
`fit`, `predict`, `transform`, `score`, `linear_fit`, `__eq__`) and states and
proves properties of that embedding.  Real numbers are modelled as rationals;
the non-finite IEEE values that the validation code must reject are modelled
explicitly by the `PyFloat` type.  Components of the package that are not part
of `earth.py` (the `_basis`, `_forward`, `_pruning`, `_record` and `_util`
modules, and `numpy.linalg.lstsq`) are modelled from the specification; each
such definition carries a doc comment beginning with `Modelled from the spec:`.
-/

set_option allowUnsafeReducibility true
attribute [local semireducible] Rat.add Rat.mul Rat.sub Rat.div Rat.neg Rat.inv

deriving instance DecidableEq for Except

namespace PyEarth

/-- A double-precision value held in an input array: either a finite real
(modelled as a rational) or one of the non-finite IEEE values. -/
inductive PyFloat where
  | finite (q : ℚ)
  | nan
  | posinf
  | neginf
deriving DecidableEq, Repr

/-- Whether a `PyFloat` is finite (what `sklearn.utils.validation.assert_all_finite`
checks for every entry). -/
def PyFloat.isFinite : PyFloat → Bool
  | .finite _ => true
  | _ => false

/-- The finite value of a `PyFloat`; non-finite values map to a junk value.
Applied only after (or independently of) the finiteness checks. -/
def PyFloat.toQ : PyFloat → ℚ
  | .finite q => q
  | _ => 0

/-- An array-like input as accepted by the facade: a 1-d array, a 2-d array,
or a scipy sparse matrix (which the facade must reject). -/
inductive ArrayInput where
  | dense1 (v : List PyFloat)
  | dense2 (rows : List (List PyFloat))
  | sparse (rows : List (List PyFloat))
deriving DecidableEq, Repr

/-- `scipy.sparse.issparse`. -/
def ArrayInput.isSparse : ArrayInput → Bool
  | .sparse _ => true
  | _ => false

/-- `scipy.sparse.issparse` applied to an optional argument (`None` is not
sparse). -/
def optSparse : Option ArrayInput → Bool
  | some a => a.isSparse
  | none => false

/-- A 2-d float64 ndarray: rows of data together with the column count of the
shape metadata (`X.shape[1]`). -/
structure FMat where
  rows : List (List PyFloat)
  ncols : Nat
deriving DecidableEq, Repr

/-- A 2-d array of finite reals (a float64 ndarray all of whose entries passed
the finiteness check, or an internally produced design matrix). -/
structure QMat where
  rows : List (List ℚ)
  ncols : Nat
deriving DecidableEq, Repr

/-- Entry-wise passage from a checked float matrix to its rational values. -/
def FMat.toQMat (X : FMat) : QMat :=
  ⟨X.rows.map (fun r => r.map PyFloat.toQ), X.ncols⟩

/-- All entries of a float vector are finite. -/
def allFiniteV (v : List PyFloat) : Bool := v.all PyFloat.isFinite

/-- All entries of a float matrix are finite. -/
def allFiniteM (X : FMat) : Bool := X.rows.all allFiniteV

/-- The errors surfaced by the facade. -/
inductive PyError where
  | typeError (msg : String)
  | valueError (msg : String)
  | attributeError (msg : String)
  | zeroDivisionError
deriving DecidableEq, Repr

/-- Modelled from the spec: the kind of a basis-function term of the `_basis`
module (not under `src/`).  A term is the constant, or a linear or hinge
factor applied on top of a parent term, which is referenced by its index in
the basis (§3: "a node in a directed forest rooted at the Constant term";
parent back-references are indices into the basis array per §9). -/
inductive TermKind where
  | constant
  | linear (parent : Nat) (feature : Nat)
  | hinge (parent : Nat) (feature : Nat) (knot : ℚ) (reverse : Bool)
deriving DecidableEq, Repr

/-- Modelled from the spec: a basis-function term with its pruned flag (§3). -/
structure Term where
  kind : TermKind
  pruned : Bool
deriving DecidableEq, Repr

/-- Modelled from the spec: the `Basis` of the `_basis` module (not under
`src/`): an ordered sequence of terms with the fixed number of input
variables (§4.2: `num_variables → n`, fixed at construction). -/
structure Basis where
  terms : List Term
  num_variables : Nat
deriving DecidableEq, Repr

/-- The value of a hinge factor `max(0, s·(x − knot))` with the sign encoded
by `reverse` (§3). -/
def hingeVal (x knot : ℚ) (reverse : Bool) : ℚ :=
  if reverse then max 0 (knot - x) else max 0 (x - knot)

/-- Modelled from the spec: evaluation of the term at index `i` on one sample
row (§4.1: "recursive product along the parent chain"), with structural
recursion on a fuel bound on the index so that the kernel can evaluate it.
A parent reference that does not point to an earlier index yields 0 (such a
basis violates the §3 invariant and cannot be produced). -/
def evalTermFuel (ts : List Term) (x : List ℚ) : Nat → Nat → ℚ
  | 0, _ => 0
  | fuel + 1, i =>
    match ts.get? i with
    | none => 0
    | some t =>
      match t.kind with
      | TermKind.constant => 1
      | TermKind.linear p f =>
          (if p < i then evalTermFuel ts x fuel p else 0) * x.getD f 0
      | TermKind.hinge p f k rev =>
          (if p < i then evalTermFuel ts x fuel p else 0) *
            hingeVal (x.getD f 0) k rev

/-- Evaluation of the term at index `i` of the basis on one sample row.  The
fuel `i + 1` always suffices because each parent reference strictly
decreases the index. -/
def evalTermIdx (ts : List Term) (x : List ℚ) (i : Nat) : ℚ :=
  evalTermFuel ts x (i + 1) i

/-- Modelled from the spec: `plen()`, the count of unpruned terms (§4.2). -/
def Basis.plen (b : Basis) : Nat := (b.terms.filter (fun t => ! t.pruned)).length

/-- Modelled from the spec: the evaluations of the unpruned terms, in
insertion order, at one sample row (one row of the §4.2 `transform` output:
"column j of the output is the evaluation of the j-th unpruned term"). -/
def Basis.evalRow (b : Basis) (x : List ℚ) : List ℚ :=
  ((b.terms.zip (List.range b.terms.length)).filter
    (fun ti => ! ti.1.pruned)).map (fun ti => evalTermIdx b.terms x ti.2)

/-- Modelled from the spec: `Basis.transform(X, out)` (§4.2) fills an
`m × plen()` matrix with the evaluations of the unpruned terms. -/
def Basis.transformQ (b : Basis) (X : QMat) : QMat :=
  ⟨X.rows.map b.evalRow, b.plen⟩

theorem filter_zip_length (p : Term → Bool) :
    ∀ (l : List Term) (idx : List Nat), l.length ≤ idx.length →
      ((l.zip idx).filter (fun ti => p ti.1)).length = (l.filter p).length := by
  intro l
  induction l with
  | nil => intro idx _; simp
  | cons t l ih =>
    intro idx hlen
    cases idx with
    | nil => simp at hlen
    | cons i idx =>
      simp only [List.zip_cons_cons, List.filter_cons]
      by_cases hp : p t
      · simp [hp, ih idx (by simpa using hlen)]
      · simp [hp, ih idx (by simpa using hlen)]

/-- Each row produced by `Basis.evalRow` has length `plen`. -/
theorem Basis.evalRow_length (b : Basis) (x : List ℚ) :
    (b.evalRow x).length = b.plen := by
  unfold Basis.evalRow Basis.plen
  rw [List.length_map]
  exact filter_zip_length (fun t => ! t.pruned) b.terms (List.range b.terms.length) (by simp)

/-- Modelled from the spec: `ForwardPassRecord` of the `_record` module (not
under `src/`): an append-only list of per-iteration metric entries
(mse, gcv, rsq, grsq) together with the stopping condition (§4.7).  The
claims below never inspect record contents, only compare records, so the
model records an empty history. -/
structure ForwardPassRecord where
  entries : List (ℚ × ℚ × ℚ × ℚ)
  stopping_condition : Nat
deriving DecidableEq, Repr

/-- Modelled from the spec: `PruningPassRecord` of the `_record` module (not
under `src/`): per-step metric entries and the selected (argmin-GCV) step
(§4.7).  As for `ForwardPassRecord`, contents are not exercised by the
claims. -/
structure PruningPassRecord where
  entries : List (ℚ × ℚ × ℚ × ℚ)
  selected : Nat
deriving DecidableEq, Repr

/-- The attribute state (`__dict__`) of an `Earth` instance, restricted to the
attributes that `fit` and its sub-passes create: `linvars_` (set at the top of
`fit`), `basis_` and `forward_pass_record_` (set by `forward_pass`),
`pruning_pass_record_` (set by `pruning_pass`) and `coef_` (set by
`linear_fit`).  A `none` field models an attribute that is not present in the
instance dictionary. -/
structure Earth where
  linvars_ : Option (List Nat) := none
  basis_ : Option Basis := none
  coef_ : Option (List ℚ) := none
  forward_pass_record_ : Option ForwardPassRecord := none
  pruning_pass_record_ : Option PruningPassRecord := none
deriving DecidableEq, Repr

/-- The column-count check at the end of `Earth._scrub_x`: when the instance
has a fitted basis, a 2-d `X` whose number of columns differs from
`basis_.num_variables` is rejected with a `ValueError`. -/
def checkCols (st : Earth) (X : FMat) : Except PyError FMat :=
  match st.basis_ with
  | some b =>
      if X.ncols ≠ b.num_variables then
        .error (.valueError "Wrong number of columns in X")
      else .ok X
  | none => .ok X

/-- The number of columns `numpy` reports for a 2-d array built from the given
rows. -/
def rectCols (rows : List (List PyFloat)) : Nat :=
  match rows with
  | [] => 0
  | r :: _ => r.length

/-- Whether the rows form a rectangular (hence convertible) 2-d array. -/
def isRect (rows : List (List PyFloat)) : Bool :=
  rows.all (fun r => r.length = rectCols rows)

/-- `Earth._scrub_x`: reject sparse input with a `TypeError`, convert to a
float64 array (a ragged nested sequence fails the conversion), reshape a 1-d
input of length m into an m×1 matrix, and check the column count against the
fitted basis if one is present. -/
def Earth._scrub_x (st : Earth) (X : ArrayInput) : Except PyError FMat :=
  match X with
  | .sparse _ =>
      .error (.typeError "A sparse matrix was passed, but dense data is required. Use X.toarray() to convert to dense.")
  | .dense1 v => checkCols st ⟨v.map (fun a => [a]), 1⟩
  | .dense2 rows =>
      if isRect rows then checkCols st ⟨rows, rectCols rows⟩
      else .error (.valueError "setting an array element with a sequence")

/-- The `y.reshape(y.shape[0])` step of `Earth._scrub`: a 1-d array is kept,
an m×1 column is flattened, any other 2-d shape cannot be reshaped to its row
count. -/
def reshape1d (a : ArrayInput) : Except PyError (List PyFloat) :=
  match a with
  | .sparse _ =>
      .error (.typeError "A sparse matrix was passed, but dense data is required.")
  | .dense1 v => .ok v
  | .dense2 rows =>
      if rows.all (fun r => r.length = 1) then
        .ok (rows.map (fun r => r.getD 0 (.finite 0)))
      else .error (.valueError "cannot reshape array")

/-- The `sample_weight` handling of `Earth._scrub`: a missing weight becomes
the all-ones vector of the length of `y`; a given weight is converted and
reshaped to 1-d. -/
def defaultWeights (w : Option ArrayInput) (yf : List PyFloat) :
    Except PyError (List PyFloat) :=
  match w with
  | none => .ok (List.replicate yf.length (PyFloat.finite 1))
  | some a => reshape1d a

/-- `Earth._scrub`: reject sparse `y` and `sample_weight` with a `TypeError`,
scrub `X` (which rejects sparse `X`), reshape `y` and the weights to 1-d,
check that the dimensions of `X`, `y` and the weights agree, and finally
assert that every value of `X`, `y` and the weights is finite. -/
def Earth._scrub (st : Earth) (X y : ArrayInput) (w : Option ArrayInput) :
    Except PyError (FMat × List PyFloat × List PyFloat) :=
  if y.isSparse then
    .error (.typeError "A sparse matrix was passed, but dense data is required. Use y.toarray() to convert to dense.")
  else if optSparse w then
    .error (.typeError "A sparse matrix was passed, but dense data is required. Use sample_weight.toarray() to convert to dense.")
  else
    match Earth._scrub_x st X with
    | .error e => .error e
    | .ok Xf =>
      match reshape1d y with
      | .error e => .error e
      | .ok yf =>
        match defaultWeights w yf with
        | .error e => .error e
        | .ok wf =>
          if yf.length ≠ Xf.rows.length then
            .error (.valueError "X and y do not have compatible dimensions.")
          else if yf.length ≠ wf.length then
            .error (.valueError "y and sample_weight do not have compatible dimensions.")
          else if ¬ allFiniteM Xf then
            .error (.valueError "Input contains NaN, infinity or a value too large for dtype float64.")
          else if ¬ allFiniteV yf then
            .error (.valueError "Input contains NaN, infinity or a value too large for dtype float64.")
          else if ¬ allFiniteV wf then
            .error (.valueError "Input contains NaN, infinity or a value too large for dtype float64.")
          else .ok (Xf, yf, wf)

/-- `Earth._scrub` as re-run by `forward_pass`, `pruning_pass` and
`linear_fit` on the already scrubbed ndarrays that `fit` hands them: the
sparseness and reshaping steps are identities on such data, leaving the
column-count, dimension and finiteness checks. -/
def scrubArr (st : Earth) (Xf : FMat) (yf wf : List PyFloat) :
    Except PyError Unit :=
  match checkCols st Xf with
  | .error e => .error e
  | .ok _ =>
    if yf.length ≠ Xf.rows.length then
      .error (.valueError "X and y do not have compatible dimensions.")
    else if yf.length ≠ wf.length then
      .error (.valueError "y and sample_weight do not have compatible dimensions.")
    else if ¬ allFiniteM Xf then
      .error (.valueError "Input contains NaN, infinity or a value too large for dtype float64.")
    else if ¬ allFiniteV yf then
      .error (.valueError "Input contains NaN, infinity or a value too large for dtype float64.")
    else if ¬ allFiniteV wf then
      .error (.valueError "Input contains NaN, infinity or a value too large for dtype float64.")
    else .ok ()

/-- Dot product of two rational vectors. -/
def dotQ (a b : List ℚ) : ℚ := (List.zipWith (fun x y => x * y) a b).sum

/-- `np.dot(B, c)` for a 2-d `B` and a vector `c`. -/
def matVecQ (B : QMat) (c : List ℚ) : List ℚ := B.rows.map (fun r => dotQ r c)

/-- The transpose of a row-list matrix with the given column count. -/
def transposeQ (rows : List (List ℚ)) (ncols : Nat) : List (List ℚ) :=
  (List.range ncols).map (fun j => rows.map (fun r => r.getD j 0))

/-- Remove the entry at position `j` of a row. -/
def dropEntry (j : Nat) (r : List ℚ) : List ℚ := r.take j ++ r.drop (j + 1)

/-- Determinant of a square row-list matrix by Laplace expansion along the
first row, with structural recursion on a fuel bound on the row count so
that the kernel can evaluate it. -/
def detFuel : Nat → List (List ℚ) → ℚ
  | _, [] => 1
  | 0, _ :: _ => 0
  | fuel + 1, r :: rest =>
      ((List.range r.length).map (fun j =>
        (if j % 2 = 0 then (1 : ℚ) else -1) * r.getD j 0 *
          detFuel fuel (rest.map (dropEntry j)))).sum

/-- Determinant of a square row-list matrix.  The fuel `A.length` always
suffices because each expansion step removes one row. -/
def detL (A : List (List ℚ)) : ℚ := detFuel A.length A

/-- Replace column `j` of a square row-list matrix by the vector `c`. -/
def setColQ (A : List (List ℚ)) (j : Nat) (c : List ℚ) : List (List ℚ) :=
  List.zipWith (fun row ci => row.set j ci) A c

/-- Modelled from the spec: `numpy.linalg.lstsq`, the external least-squares
solver called by `Earth.linear_fit` ("coefficient vector of length = plen()
(from the external least-squares solver over the unpruned columns)", §6).
The model solves the normal equations of `min ‖B·x − y‖²` by Cramer's rule;
when the normal matrix is singular (numpy would return a minimum-norm
solution) it returns the zero vector, which also has the documented length
`B.ncols`. -/
def np_lstsq (B : QMat) (y : List ℚ) : List ℚ :=
  let n := B.ncols
  let Bt := transposeQ B.rows n
  let A := Bt.map (fun ri => Bt.map (fun rj => dotQ ri rj))
  let c := Bt.map (fun ri => dotQ ri y)
  let d := detL A
  if d = 0 then List.replicate n 0
  else (List.range n).map (fun j => detL (setColQ A j c) / d)

/-- `np.linalg.lstsq` returns one coefficient per column of its matrix. -/
theorem np_lstsq_length (B : QMat) (y : List ℚ) :
    (np_lstsq B y).length = B.ncols := by
  unfold np_lstsq
  by_cases hd :
      detL ((transposeQ B.rows B.ncols).map (fun ri =>
        (transposeQ B.rows B.ncols).map (fun rj => dotQ ri rj))) = 0 <;>
    simp [hd]

/-- Modelled from the spec: `_util.apply_weights_2d` (the `_util` module is
not under `src/`).  Row i of the design matrix is scaled by a factor that
depends only on the weight of sample i and vanishes exactly when that weight
is zero (the source uses √wᵢ so that the least-squares objective becomes the
weighted RSS of §4.4; square roots leave ℚ, so the model scales by wᵢ, which
has the same zero set — the only property the claims rely on). -/
def apply_weights_2d (B : QMat) (w : List ℚ) : QMat :=
  ⟨List.zipWith (fun wi row => row.map (fun v => wi * v)) w B.rows, B.ncols⟩

/-- Modelled from the spec: `_util.apply_weights_1d`; the 1-d analogue of
`apply_weights_2d`. -/
def apply_weights_1d (y w : List ℚ) : List ℚ :=
  List.zipWith (fun wi yi => wi * yi) w y

/-- The per-sample view of the scrubbed training data: a predictor row, a
response value and a weight. -/
def sampleRows (X : QMat) (y w : List ℚ) : List (List ℚ × ℚ × ℚ) :=
  X.rows.zip (y.zip w)

/-- A representative interior knot for one feature over the contributing
rows: the middle of the distinct values of that feature, provided at least
three distinct values exist (so the two extreme values, excluded by the
endspan rule of §4.3, do not exhaust the candidates). -/
def knotChoice (rows : List (List ℚ × ℚ × ℚ)) (f : Nat) : Option ℚ :=
  let vs := (rows.map (fun r => r.1.getD f 0)).dedup
  if 3 ≤ vs.length then some (vs.getD (vs.length / 2) 0) else none

/-- Modelled from the spec: the forward pass (`_forward.ForwardPasser`, not
under `src/`).  Kept from §§3–4.5: the basis starts with the constant term at
index 0, `num_variables` is the number of input columns, hinge terms enter as
mirror pairs sharing (parent, feature, knot), and — per §3 and §8 ("zero-weight
rows contribute nothing", "Sample-weight zeroing") — the construction depends
on the data only through the rows of nonzero weight.  The knot search of §4.3
is abstracted to one mirror pair per feature at a representative interior
knot. -/
def forwardPassModel (n : Nat) (rows : List (List ℚ × ℚ × ℚ)) : Basis :=
  let act := rows.filter (fun r => r.2.2 ≠ 0)
  let hinges := (List.range n).foldr (fun f acc =>
      match knotChoice act f with
      | some k => ⟨.hinge 0 f k false, false⟩ :: ⟨.hinge 0 f k true, false⟩ :: acc
      | none => acc) []
  ⟨⟨.constant, false⟩ :: hinges, n⟩

/-- Modelled from the spec: the pruning pass (`_pruning.PruningPasser`, not
under `src/`).  Backward elimination by GCV (§4.6) always has the fully
unpruned state among its candidate models; the model selects it, so no
pruned flag is set.  Like the forward pass it may depend on the data only
through the rows of nonzero weight (§8). -/
def pruningPassModel (b : Basis) (rows : List (List ℚ × ℚ × ℚ)) : Basis := b

/-- Modelled from the spec: the record produced by `ForwardPasser.trace()`;
contents are not exercised by the claims. -/
def forwardRecordModel (rows : List (List ℚ × ℚ × ℚ)) : ForwardPassRecord :=
  ⟨[], 0⟩

/-- Modelled from the spec: the record produced by `PruningPasser.trace()`;
contents are not exercised by the claims. -/
def pruningRecordModel (rows : List (List ℚ × ℚ × ℚ)) : PruningPassRecord :=
  ⟨[], 0⟩

/-- `Earth.transform` applied to an ndarray (the call made on data that has
already gone through `_scrub_x` or `_scrub`): `_scrub_x` runs again (on an
ndarray only the column check can fire), then `basis_` is read (absent
`basis_` is an `AttributeError`) and the design matrix is filled. -/
def Earth.transformF (st : Earth) (Xf : FMat) : Except PyError QMat :=
  match checkCols st Xf with
  | .error e => .error e
  | .ok X1 =>
    match st.basis_ with
    | none => .error (.attributeError "basis_")
    | some b => .ok (b.transformQ X1.toQMat)

/-- `Earth.transform`: scrub `X` with `_scrub_x` and fill an
`m × basis_.plen()` matrix with the basis evaluations. -/
def Earth.transform (st : Earth) (X : ArrayInput) : Except PyError QMat :=
  match Earth._scrub_x st X with
  | .error e => .error e
  | .ok Xf => Earth.transformF st Xf

/-- `Earth.predict` applied to an ndarray: transform into basis space, read
`coef_`, and return `np.dot(B, coef_)`. -/
def Earth.predictF (st : Earth) (Xf : FMat) : Except PyError (List ℚ) :=
  match Earth.transformF st Xf with
  | .error e => .error e
  | .ok B =>
    match st.coef_ with
    | none => .error (.attributeError "coef_")
    | some c => .ok (matVecQ B c)

/-- `Earth.predict`: `X = self._scrub_x(X)`, `B = self.transform(X)` (which
scrubs again), `np.dot(B, self.coef_)`. -/
def Earth.predict (st : Earth) (X : ArrayInput) : Except PyError (List ℚ) :=
  match Earth._scrub_x st X with
  | .error e => .error e
  | .ok Xf =>
    match Earth.transformF st Xf with
    | .error e => .error e
    | .ok B =>
      match st.coef_ with
      | none => .error (.attributeError "coef_")
      | some c => .ok (matVecQ B c)

/-- The weighted residual sum of squares
`np.sum(sample_weight * (residual ** 2))` for `residual = y - y_hat`. -/
def weightedRSS (w y yhat : List ℚ) : ℚ :=
  (List.zipWith (fun wi ri => wi * ri ^ 2) w
    (List.zipWith (fun a b => a - b) y yhat)).sum

/-- The weighted mean `np.average(y, weights=w)` (numpy raises a
`ZeroDivisionError` when the weights sum to zero; the caller below checks
that first). -/
def weightedMean (w y : List ℚ) : ℚ :=
  (List.zipWith (fun wi yi => wi * yi) w y).sum / w.sum

/-- The weighted total sum of squares about the weighted mean,
`np.sum(sample_weight * ((y - np.average(y, weights=sample_weight)) ** 2))`. -/
def weightedTSS (w y : List ℚ) : ℚ :=
  (List.zipWith (fun wi yi => wi * (yi - weightedMean w y) ^ 2) w y).sum

/-- `Earth.score`: scrub the data, predict on the scrubbed `X`, and return
`1 - mse / mse0` where `mse = RSS / m` for the residual `y - ŷ` and
`mse0 = RSS₀ / m` about the weighted mean (`np.average` raises
`ZeroDivisionError` when the weights sum to zero). -/
def Earth.score (st : Earth) (X y : ArrayInput) (w : Option ArrayInput) :
    Except PyError ℚ :=
  match Earth._scrub st X y w with
  | .error e => .error e
  | .ok (Xf, yf, wf) =>
    match Earth.predictF st Xf with
    | .error e => .error e
    | .ok yhat =>
      let yq := yf.map PyFloat.toQ
      let wq := wf.map PyFloat.toQ
      let m : ℚ := (Xf.rows.length : ℚ)
      if wq.sum = 0 then .error .zeroDivisionError
      else .ok (1 - (weightedRSS wq yq yhat / m) / (weightedTSS wq yq / m))

/-- `Earth.fit`, run as a state transformer: assign `linvars_`, scrub, then
`forward_pass`, `pruning_pass` and `linear_fit`, each of which re-scrubs the
ndarrays it receives and then sets its output attributes.  An error leaves
the attributes mutated so far on the instance and is reported in the second
component. -/
def Earth.fit (st : Earth) (X y : ArrayInput) (w : Option ArrayInput)
    (linvars : List Nat) : Earth × Option PyError :=
  let st1 := { st with linvars_ := some linvars }
  match Earth._scrub st1 X y w with
  | .error e => (st1, some e)
  | .ok (Xf, yf, wf) =>
    -- forward_pass re-scrubs, then runs the forward passer and stores its
    -- trace and basis
    match scrubArr st1 Xf yf wf with
    | .error e => (st1, some e)
    | .ok _ =>
      let Xq := Xf.toQMat
      let yq := yf.map PyFloat.toQ
      let wq := wf.map PyFloat.toQ
      let rows := sampleRows Xq yq wq
      let st2 := { st1 with
        forward_pass_record_ := some (forwardRecordModel rows),
        basis_ := some (forwardPassModel Xq.ncols rows) }
      -- pruning_pass re-scrubs (the column check now runs against the new
      -- basis), then runs the pruning passer and stores its trace
      match scrubArr st2 Xf yf wf with
      | .error e => (st2, some e)
      | .ok _ =>
        let st3 := { st2 with
          basis_ := some (pruningPassModel (forwardPassModel Xq.ncols rows) rows),
          pruning_pass_record_ := some (pruningRecordModel rows) }
        -- linear_fit re-scrubs, transforms, applies the weights and solves
        match scrubArr st3 Xf yf wf with
        | .error e => (st3, some e)
        | .ok _ =>
          match Earth.transformF st3 Xf with
          | .error e => (st3, some e)
          | .ok B =>
            let Bw := apply_weights_2d B wq
            let yw := apply_weights_1d yq wq
            ({ st3 with coef_ := some (np_lstsq Bw yw) }, none)

/-- One attribute comparison inside `Earth.__eq__`: an attribute present on
only one of the two instances is a `KeyError` (compares unequal); an
attribute present on both compares by value; an attribute on neither is not
in the key union and imposes nothing. -/
def attrEqB {α : Type} [DecidableEq α] : Option α → Option α → Bool
  | none, none => true
  | some x, some y => decide (x = y)
  | _, _ => false

/-- `Earth.__eq__` between two `Earth` instances: iterate over the union of
the two attribute dictionaries and compare every attribute (there is no
special-casing of the record attributes). -/
def Earth.eq (a b : Earth) : Bool :=
  attrEqB a.linvars_ b.linvars_ &&
  attrEqB a.basis_ b.basis_ &&
  attrEqB a.coef_ b.coef_ &&
  attrEqB a.forward_pass_record_ b.forward_pass_record_ &&
  attrEqB a.pruning_pass_record_ b.pruning_pass_record_

/-! ## Helper lemmas about the scrubbing pipeline -/

theorem checkCols_ok {st : Earth} {X Y : FMat} (h : checkCols st X = .ok Y) :
    Y = X ∧ ∀ b, st.basis_ = some b → X.ncols = b.num_variables := by
  unfold checkCols at h
  split at h
  next b hb =>
    split at h
    · cases h
    next hc =>
      cases h
      exact ⟨rfl, fun b2 hb2 => by rw [hb] at hb2; cases hb2; exact not_not.mp hc⟩
  next hb =>
    cases h
    exact ⟨rfl, fun b2 hb2 => by rw [hb] at hb2; cases hb2⟩

theorem scrub_x_ok_cols {st : Earth} {X : ArrayInput} {Xf : FMat}
    (h : Earth._scrub_x st X = .ok Xf) :
    ∀ b, st.basis_ = some b → Xf.ncols = b.num_variables := by
  cases X with
  | sparse rows => cases h
  | dense1 v =>
      simp only [Earth._scrub_x] at h
      obtain ⟨hY, hcols⟩ := checkCols_ok h
      subst hY; exact hcols
  | dense2 rows =>
      simp only [Earth._scrub_x] at h
      split at h
      · obtain ⟨hY, hcols⟩ := checkCols_ok h
        subst hY; exact hcols
      · cases h

theorem scrub_ok_facts {st : Earth} {X y : ArrayInput} {w : Option ArrayInput}
    {Xf : FMat} {yf wf : List PyFloat}
    (h : Earth._scrub st X y w = .ok (Xf, yf, wf)) :
    yf.length = Xf.rows.length ∧ yf.length = wf.length ∧
    allFiniteM Xf = true ∧ allFiniteV yf = true ∧ allFiniteV wf = true ∧
    Earth._scrub_x st X = .ok Xf ∧ reshape1d y = .ok yf ∧
    defaultWeights w yf = .ok wf := by
  unfold Earth._scrub at h
  split at h
  · cases h
  · split at h
    · cases h
    · split at h
      next e heq => cases h
      next Xf2 heq =>
        split at h
        next e heq2 => cases h
        next yf2 heq2 =>
          split at h
          next e heq3 => cases h
          next wf2 heq3 =>
            split at h
            · cases h
            · split at h
              · cases h
              · split at h
                · cases h
                · split at h
                  · cases h
                  · split at h
                    · cases h
                    · next h1 h2 h3 h4 h5 =>
                        obtain ⟨hX, hy, hw⟩ :
                            Xf2 = Xf ∧ yf2 = yf ∧ wf2 = wf := by
                          have := (Except.ok.injEq _ _).mp h
                          exact ⟨congrArg Prod.fst this,
                            congrArg (fun p => p.2.1) this,
                            congrArg (fun p => p.2.2) this⟩
                        subst hX; subst hy; subst hw
                        refine ⟨not_not.mp h1, not_not.mp h2, ?_, ?_, ?_,
                          heq, heq2, heq3⟩
                        · exact Bool.of_not_eq_false (by simpa using h3)
                        · exact Bool.of_not_eq_false (by simpa using h4)
                        · exact Bool.of_not_eq_false (by simpa using h5)

theorem scrubArr_ok {st : Earth} {Xf : FMat} {yf wf : List PyFloat}
    (h1 : yf.length = Xf.rows.length) (h2 : yf.length = wf.length)
    (h3 : allFiniteM Xf = true) (h4 : allFiniteV yf = true)
    (h5 : allFiniteV wf = true)
    (h6 : ∀ b, st.basis_ = some b → Xf.ncols = b.num_variables) :
    scrubArr st Xf yf wf = .ok () := by
  have h7 : Xf.rows.length = wf.length := by rw [← h1]; exact h2
  unfold scrubArr checkCols
  cases hb : st.basis_ with
  | none => simp [h1, h2, h3, h4, h5, h7]
  | some b => simp [h1, h2, h3, h4, h5, h7, h6 b hb]

theorem FMat.toQMat_ncols (X : FMat) : X.toQMat.ncols = X.ncols := rfl

theorem forwardPassModel_nv (n : Nat) (rows : List (List ℚ × ℚ × ℚ)) :
    (forwardPassModel n rows).num_variables = n := rfl

/-- The per-instance state reached when `fit` runs to completion: every
fitted attribute is overwritten, so the result depends only on the scrubbed
data and `linvars`. -/
def fitSuccState (lv : List Nat) (Xf : FMat) (yf wf : List PyFloat) : Earth :=
  let Xq := Xf.toQMat
  let yq := yf.map PyFloat.toQ
  let wq := wf.map PyFloat.toQ
  let rows := sampleRows Xq yq wq
  let basis := pruningPassModel (forwardPassModel Xq.ncols rows) rows
  { linvars_ := some lv
    basis_ := some basis
    coef_ := some (np_lstsq (apply_weights_2d (basis.transformQ Xq) wq)
      (apply_weights_1d yq wq))
    forward_pass_record_ := some (forwardRecordModel rows)
    pruning_pass_record_ := some (pruningRecordModel rows) }

/-- When the initial scrub succeeds, the remaining passes of `fit` run to
completion: their re-scrubs see the same validated data (and a basis whose
`num_variables` matches the column count), so no further error can occur. -/
theorem fit_ok {st : Earth} {X y : ArrayInput} {w : Option ArrayInput}
    {lv : List Nat} {Xf : FMat} {yf wf : List PyFloat}
    (h : Earth._scrub { st with linvars_ := some lv } X y w = .ok (Xf, yf, wf)) :
    Earth.fit st X y w lv = (fitSuccState lv Xf yf wf, none) := by
  obtain ⟨h1, h2, h3, h4, h5, hx, -, -⟩ := scrub_ok_facts h
  have hcols := scrub_x_ok_cols hx
  have hs1 : scrubArr { st with linvars_ := some lv } Xf yf wf = .ok () :=
    scrubArr_ok h1 h2 h3 h4 h5 hcols
  have hnv : ∀ rows2, Xf.ncols =
      (forwardPassModel Xf.toQMat.ncols rows2).num_variables := by
    intro rows2; rw [forwardPassModel_nv, FMat.toQMat_ncols]
  have hs2 : ∀ (fr : ForwardPassRecord) rows2, scrubArr { st with linvars_ := some lv, forward_pass_record_ := some fr, basis_ := some (forwardPassModel Xf.toQMat.ncols rows2) } Xf yf wf = .ok () := by
    intro fr rows2
    refine scrubArr_ok h1 h2 h3 h4 h5 ?_
    intro b hb
    cases hb
    exact hnv rows2
  have hs3 : ∀ (fr : ForwardPassRecord) (pr : PruningPassRecord) rows2, scrubArr { st with linvars_ := some lv, forward_pass_record_ := some fr, basis_ := some (pruningPassModel (forwardPassModel Xf.toQMat.ncols rows2) rows2), pruning_pass_record_ := some pr } Xf yf wf = .ok () := by
    intro fr pr rows2
    refine scrubArr_ok h1 h2 h3 h4 h5 ?_
    intro b hb
    cases hb
    exact hnv rows2
  have ht : ∀ (fr : ForwardPassRecord) (pr : PruningPassRecord) rows2, Earth.transformF { st with linvars_ := some lv, forward_pass_record_ := some fr, basis_ := some (pruningPassModel (forwardPassModel Xf.toQMat.ncols rows2) rows2), pruning_pass_record_ := some pr } Xf = .ok ((pruningPassModel (forwardPassModel Xf.toQMat.ncols rows2) rows2).transformQ Xf.toQMat) := by
    intro fr pr rows2
    unfold Earth.transformF checkCols
    simp [pruningPassModel, forwardPassModel_nv, FMat.toQMat_ncols]
  simp only [Earth.fit, h, hs1, hs2, hs3, ht]
  rfl

/-- When the initial scrub fails, `fit` stops there and reports the error. -/
theorem fit_error {st : Earth} {X y : ArrayInput} {w : Option ArrayInput}
    {lv : List Nat} {e : PyError}
    (h : Earth._scrub { st with linvars_ := some lv } X y w = .error e) :
    Earth.fit st X y w lv = ({ st with linvars_ := some lv }, some e) := by
  simp only [Earth.fit, h]

/-! ## The claims -/

/-- C1: for every fitted Earth model (`basis_` and `coef_` present) and every
input `X`, `predict(X)` equals the matrix product of `transform(X)` with the
coefficient vector `coef_` (exact equality in the rational model, hence
elementwise to numerical tolerance in floating point). -/
theorem C1_predict_is_transform_dot_coef (st : Earth) (X : ArrayInput)
    (b : Basis) (c : List ℚ) (hb : st.basis_ = some b) (hc : st.coef_ = some c) :
    Earth.predict st X = (Earth.transform st X).map (fun B => matVecQ B c) := by
  unfold Earth.predict Earth.transform
  cases hx : Earth._scrub_x st X with
  | error e => rfl
  | ok Xf =>
    cases htf : Earth.transformF st Xf with
    | error e => simp [htf, Except.map]
    | ok B => simp [htf, hc, Except.map]

/-- Witness for C1 at a concrete fitted model and input. -/
theorem C1_witness :
    Earth.predict ({ basis_ := some ⟨[⟨.constant, false⟩], 1⟩, coef_ := some [2] } : Earth)
        (.dense2 [[.finite 5]])
      = (Earth.transform ({ basis_ := some ⟨[⟨.constant, false⟩], 1⟩, coef_ := some [2] } : Earth)
          (.dense2 [[.finite 5]])).map (fun B => matVecQ B [2]) :=
  C1_predict_is_transform_dot_coef _ _ ⟨[⟨.constant, false⟩], 1⟩ [2] rfl rfl

theorem attrEqB_true_iff {α : Type} [DecidableEq α] (x y : Option α) :
    attrEqB x y = true ↔ x = y := by
  cases x <;> cases y <;> simp [attrEqB]

/-- A fitted instance used to exhibit the record-sensitivity of `__eq__`. -/
def eqWitnessA : Earth :=
  { basis_ := some ⟨[⟨.constant, false⟩], 1⟩, coef_ := some [1], forward_pass_record_ := some ⟨[], 0⟩ }

/-- A second instance with the same basis and coefficients as `eqWitnessA`
but a different forward-pass record. -/
def eqWitnessB : Earth :=
  { basis_ := some ⟨[⟨.constant, false⟩], 1⟩, coef_ := some [1], forward_pass_record_ := some ⟨[], 1⟩ }

/-- C7 counterexample: two instances whose bases and coefficient vectors agree
elementwise but whose forward-pass records differ compare unequal, although
the claim says agreement of basis and coefficients suffices. -/
theorem C7_counterexample :
    eqWitnessA.basis_ = eqWitnessB.basis_ ∧
    eqWitnessA.coef_ = eqWitnessB.coef_ ∧
    Earth.eq eqWitnessA eqWitnessB = false := by
  decide

/-- C7 (amended): `__eq__` compares the entire attribute dictionaries of the
two instances — basis, coefficients, `linvars_` and both pass records — and
returns True exactly when every attribute agrees (an attribute present on
only one side compares unequal); agreement of the bases and coefficient
vectors alone is not sufficient. -/
theorem C7_eq_iff_all_attributes (a b : Earth) : Earth.eq a b = true ↔ a = b := by
  unfold Earth.eq
  simp only [Bool.and_eq_true, attrEqB_true_iff]
  constructor
  · rintro ⟨⟨⟨⟨h1, h2⟩, h3⟩, h4⟩, h5⟩
    cases a; cases b
    simp_all
  · rintro rfl
    exact ⟨⟨⟨⟨rfl, rfl⟩, rfl⟩, rfl⟩, rfl⟩

/-- C10: with a fitted basis present, a rectangular 2-d `X` whose column
count differs from `basis_.num_variables` makes `transform` and `predict`
raise the `ValueError` from `_scrub_x` (before any evaluation), and a 1-d
`X` is first reshaped to an m×1 matrix and then subjected to exactly the
same check. -/
theorem C10_column_check (st : Earth) (b : Basis) (hb : st.basis_ = some b) :
    (∀ rows, isRect rows = true → rectCols rows ≠ b.num_variables →
        Earth.transform st (.dense2 rows) =
          .error (.valueError "Wrong number of columns in X") ∧
        Earth.predict st (.dense2 rows) =
          .error (.valueError "Wrong number of columns in X")) ∧
    (∀ v : List PyFloat, Earth._scrub_x st (.dense1 v) =
        (if 1 ≠ b.num_variables then
          .error (.valueError "Wrong number of columns in X")
        else .ok ⟨v.map (fun a => [a]), 1⟩)) := by
  constructor
  · intro rows hr hcols
    have hsx : Earth._scrub_x st (.dense2 rows) =
        .error (.valueError "Wrong number of columns in X") := by
      simp [Earth._scrub_x, checkCols, hr, hb, hcols]
    exact ⟨by unfold Earth.transform; rw [hsx], by unfold Earth.predict; rw [hsx]⟩
  · intro v
    simp only [Earth._scrub_x]
    unfold checkCols
    rw [hb]

/-- Witness for C10: a model fitted on two variables rejects a one-column
2-d input and a 1-d input. -/
theorem C10_witness :
    Earth.transform ({ basis_ := some ⟨[⟨.constant, false⟩], 2⟩ } : Earth)
        (.dense2 [[.finite 1]])
      = .error (.valueError "Wrong number of columns in X") ∧
    Earth._scrub_x ({ basis_ := some ⟨[⟨.constant, false⟩], 2⟩ } : Earth)
        (.dense1 [.finite 1])
      = .error (.valueError "Wrong number of columns in X") := by
  obtain ⟨h2d, h1d⟩ := C10_column_check
    ({ basis_ := some ⟨[⟨.constant, false⟩], 2⟩ } : Earth) ⟨[⟨.constant, false⟩], 2⟩ rfl
  refine ⟨(h2d [[.finite 1]] (by decide) (by decide)).1, ?_⟩
  rw [h1d [.finite 1]]
  simp

/-- C4: a sparse matrix passed as `X`, `y` or `sample_weight` makes `fit`
raise a `TypeError`, and no fitting occurs: the state at the raise is the
pre-call state with only `linvars_` assigned (no basis, coefficients or
records are produced). -/
theorem C4_sparse_raises_typeerror (st : Earth) (X y : ArrayInput)
    (w : Option ArrayInput) (lv : List Nat)
    (hs : X.isSparse = true ∨ y.isSparse = true ∨
      (∃ a, w = some a ∧ a.isSparse = true)) :
    ∃ msg, Earth.fit st X y w lv =
      ({ st with linvars_ := some lv }, some (.typeError msg)) := by
  by_cases hy : y.isSparse = true
  · refine ⟨"A sparse matrix was passed, but dense data is required. Use y.toarray() to convert to dense.", fit_error ?_⟩
    unfold Earth._scrub
    rw [if_pos hy]
  · by_cases hw : optSparse w = true
    · refine ⟨"A sparse matrix was passed, but dense data is required. Use sample_weight.toarray() to convert to dense.", fit_error ?_⟩
      unfold Earth._scrub
      rw [if_neg hy, if_pos hw]
    · rcases hs with hX | hY | ⟨a, ha, hsp⟩
      · cases X with
        | sparse rows =>
            refine ⟨"A sparse matrix was passed, but dense data is required. Use X.toarray() to convert to dense.", fit_error ?_⟩
            unfold Earth._scrub
            rw [if_neg hy, if_neg hw]
            rfl
        | dense1 v => simp [ArrayInput.isSparse] at hX
        | dense2 r => simp [ArrayInput.isSparse] at hX
      · exact absurd hY hy
      · subst ha
        simp only [optSparse] at hw
        exact absurd hsp hw

/-- Witness for C4 at a concrete sparse `X`. -/
theorem C4_witness :
    ∃ msg, Earth.fit ({} : Earth) (.sparse [[.finite 1]]) (.dense1 [.finite 1])
        none []
      = ({ ({} : Earth) with linvars_ := some [] }, some (.typeError msg)) :=
  C4_sparse_raises_typeerror {} (.sparse [[.finite 1]]) (.dense1 [.finite 1])
    none [] (Or.inl rfl)

/-- C2 counterexample: on a fresh instance, `fit` with a sparse `X` raises,
yet the state at the raise differs from the pre-call state — `linvars_` has
already been assigned, contradicting "the object's state is unchanged when
the error is raised". -/
theorem C2_counterexample :
    (Earth.fit ({} : Earth) (.sparse [[.finite 1]]) (.dense1 [.finite 1])
        none []).2.isSome = true ∧
    (Earth.fit ({} : Earth) (.sparse [[.finite 1]]) (.dense1 [.finite 1])
        none []).1 ≠ ({} : Earth) := by
  decide

/-- C2 (amended): when `fit` raises (validation or otherwise), the state at
the raise is the pre-call state with only `linvars_` assigned — `linvars_`
is set before validation, but no other attribute (`basis_`, `coef_`, or
either pass record) has been mutated. -/
theorem C2_error_mutates_only_linvars (st : Earth) (X y : ArrayInput)
    (w : Option ArrayInput) (lv : List Nat) (stE : Earth) (e : PyError)
    (h : Earth.fit st X y w lv = (stE, some e)) :
    stE = { st with linvars_ := some lv } := by
  cases hs : Earth._scrub { st with linvars_ := some lv } X y w with
  | error e2 =>
      have h2 := (fit_error hs).symm.trans h
      injection h2 with h3 h4
      exact h3.symm
  | ok t =>
      obtain ⟨Xf, yf, wf⟩ := t
      have h2 := (fit_ok hs).symm.trans h
      injection h2 with h3 h4
      cases h4

/-- Witness for C2 at a concrete erroring call. -/
theorem C2_witness :
    (Earth.fit ({} : Earth) (.sparse [[.finite 1]]) (.dense1 [.finite 1])
        none []).1 = { ({} : Earth) with linvars_ := some [] } :=
  C2_error_mutates_only_linvars {} (.sparse [[.finite 1]]) (.dense1 [.finite 1])
    none [] { ({} : Earth) with linvars_ := some [] }
    (.typeError "A sparse matrix was passed, but dense data is required. Use X.toarray() to convert to dense.")
    (by decide)

/-- C3: the validation that `fit` runs (its first step after assigning
`linvars_` is `_scrub`) accepts a sample_weight with a negative finite
entry: evaluated at the failing input `X = [[1]]`, `y = [1]`,
`sample_weight = [-1]`, `_scrub` returns the data unchanged instead of
raising the `InvalidInput` error the spec (§7) requires for a negative
weight — `_scrub` checks only sparseness, shapes and finiteness, and `fit`
hands the scrubbed arrays straight to the passes with no further check. -/
theorem C3_negative_weight_passes_scrub :
    Earth._scrub ({ linvars_ := some [] } : Earth) (.dense2 [[.finite 1]])
        (.dense1 [.finite 1]) (some (.dense1 [.finite (-1)]))
      = .ok (⟨[[.finite 1]], 1⟩, [.finite 1], [.finite (-1)]) := by
  decide

/-- Whether an array-like input contains a NaN or infinite value. -/
def hasNonFiniteA : ArrayInput → Bool
  | .dense1 v => ! allFiniteV v
  | .dense2 rows => rows.any (fun r => ! allFiniteV r)
  | .sparse rows => rows.any (fun r => ! allFiniteV r)

theorem reshape1d_finite {a : ArrayInput} {yf : List PyFloat}
    (h : reshape1d a = .ok yf) (hf : allFiniteV yf = true) :
    hasNonFiniteA a = false := by
  cases a with
  | sparse rows => cases h
  | dense1 v =>
      simp only [reshape1d] at h
      cases h
      simp only [hasNonFiniteA, hf, Bool.not_true]
  | dense2 rows =>
      simp only [reshape1d] at h
      split at h
      case isTrue hall =>
        cases h
        simp only [hasNonFiniteA]
        by_contra hne
        rw [Bool.not_eq_false] at hne
        obtain ⟨r, hr, hrn⟩ := List.any_eq_true.mp hne
        have hl : r.length = 1 :=
          of_decide_eq_true (List.all_eq_true.mp hall r hr)
        obtain ⟨x, rfl⟩ := List.length_eq_one.mp hl
        have hx : PyFloat.isFinite x = false := by
          simpa [allFiniteV] using hrn
        have hmem : x ∈ rows.map (fun r => r.getD 0 (PyFloat.finite 0)) :=
          List.mem_map_of_mem (fun r => r.getD 0 (PyFloat.finite 0)) hr
        have := List.all_eq_true.mp hf x hmem
        rw [hx] at this
        cases this
      case isFalse hall => cases h

theorem scrub_x_finite {st : Earth} {X : ArrayInput} {Xf : FMat}
    (h : Earth._scrub_x st X = .ok Xf) (hf : allFiniteM Xf = true) :
    hasNonFiniteA X = false := by
  cases X with
  | sparse rows => cases h
  | dense1 v =>
      simp only [Earth._scrub_x] at h
      obtain ⟨hY, -⟩ := checkCols_ok h
      subst hY
      simp only [allFiniteM] at hf
      simp only [hasNonFiniteA]
      rw [Bool.not_eq_false_eq_eq_true]
      refine List.all_eq_true.mpr fun a ha => ?_
      have hmem : [a] ∈ v.map (fun a => [a]) :=
        List.mem_map_of_mem (fun a => [a]) ha
      have := List.all_eq_true.mp hf [a] hmem
      simpa [allFiniteV] using this
  | dense2 rows =>
      simp only [Earth._scrub_x] at h
      split at h
      case isTrue hrect =>
        obtain ⟨hY, -⟩ := checkCols_ok h
        subst hY
        simp only [allFiniteM] at hf
        simp only [hasNonFiniteA]
        by_contra hne
        rw [Bool.not_eq_false] at hne
        obtain ⟨r, hr, hrn⟩ := List.any_eq_true.mp hne
        have := List.all_eq_true.mp hf r hr
        rw [this] at hrn
        cases hrn
      case isFalse hrect => cases h

/-- C5: whenever `X`, `y` or `sample_weight` contains a NaN or infinite
value, `fit` raises an error (every accepted input is finite: the success
path of `_scrub` runs `assert_all_finite` on all three arrays). -/
theorem C5_nonfinite_raises (st : Earth) (X y : ArrayInput)
    (w : Option ArrayInput) (lv : List Nat)
    (hnf : hasNonFiniteA X = true ∨ hasNonFiniteA y = true ∨
      (∃ a, w = some a ∧ hasNonFiniteA a = true)) :
    ∃ e, (Earth.fit st X y w lv).2 = some e := by
  cases hs : Earth._scrub { st with linvars_ := some lv } X y w with
  | error e => exact ⟨e, by rw [fit_error hs]⟩
  | ok t =>
      exfalso
      obtain ⟨Xf, yf, wf⟩ := t
      obtain ⟨-, -, h3, h4, h5, hx, hry, hrw⟩ := scrub_ok_facts hs
      rcases hnf with hX | hY | ⟨a, ha, hA⟩
      · rw [scrub_x_finite hx h3] at hX
        cases hX
      · rw [reshape1d_finite hry h4] at hY
        cases hY
      · subst ha
        have hra : reshape1d a = .ok wf := hrw
        rw [reshape1d_finite hra h5] at hA
        cases hA

/-- Witness for C5 at a concrete NaN in `y`. -/
theorem C5_witness :
    ∃ e, (Earth.fit ({} : Earth) (.dense2 [[.finite 1]]) (.dense1 [.nan])
        none []).2 = some e :=
  C5_nonfinite_raises {} (.dense2 [[.finite 1]]) (.dense1 [.nan]) none []
    (Or.inr (Or.inl (by decide)))

/-- C6: for every fitted model and every `X`, `y` and nonnegative
`sample_weight` of matching shapes (weights not all zero, response not
constant under the weights, at least one sample), `score` returns
`1 − RSS/RSS₀` where RSS is the weighted residual sum of squares against
`predict` and RSS₀ the weighted total sum of squares about the weighted
mean: the two divisions by `m` cancel. -/
theorem C6_score_is_one_minus_rss_ratio (st : Earth) (X y : ArrayInput)
    (w : Option ArrayInput) (Xf : FMat) (yf wf : List PyFloat) (yhat : List ℚ)
    (hs : Earth._scrub st X y w = .ok (Xf, yf, wf))
    (hp : Earth.predictF st Xf = .ok yhat)
    (hm : Xf.rows.length ≠ 0)
    (hnn : ∀ q ∈ wf.map PyFloat.toQ, 0 ≤ q)
    (hws : (wf.map PyFloat.toQ).sum ≠ 0)
    (hR0 : weightedTSS (wf.map PyFloat.toQ) (yf.map PyFloat.toQ) ≠ 0) :
    Earth.score st X y w =
      .ok (1 - weightedRSS (wf.map PyFloat.toQ) (yf.map PyFloat.toQ) yhat /
        weightedTSS (wf.map PyFloat.toQ) (yf.map PyFloat.toQ)) := by
  unfold Earth.score
  rw [hs]
  simp only [hp]
  rw [if_neg hws]
  have hmq : ((Xf.rows.length : ℚ)) ≠ 0 := Nat.cast_ne_zero.mpr hm
  congr 1
  rw [div_div_div_cancel_right₀ hmq]

/-- Witness for C6 at a concrete fitted model and data set. -/
theorem C6_witness :
    Earth.score ({ basis_ := some ⟨[⟨.constant, false⟩], 1⟩, coef_ := some [2] } : Earth)
        (.dense2 [[.finite 0], [.finite 1]]) (.dense1 [.finite 1, .finite 3]) none =
      .ok (1 - weightedRSS ([PyFloat.finite 1, PyFloat.finite 1].map PyFloat.toQ)
          ([PyFloat.finite 1, PyFloat.finite 3].map PyFloat.toQ) [2, 2] /
        weightedTSS ([PyFloat.finite 1, PyFloat.finite 1].map PyFloat.toQ)
          ([PyFloat.finite 1, PyFloat.finite 3].map PyFloat.toQ)) :=
  C6_score_is_one_minus_rss_ratio
    ({ basis_ := some ⟨[⟨.constant, false⟩], 1⟩, coef_ := some [2] } : Earth)
    (.dense2 [[.finite 0], [.finite 1]]) (.dense1 [.finite 1, .finite 3]) none
    ⟨[[.finite 0], [.finite 1]], 1⟩ [.finite 1, .finite 3]
    [.finite 1, .finite 1] [2, 2]
    (by decide) (by decide) (by decide) (by decide) (by decide) (by decide)

/-- C8: after `fit` completes on a legal input, the model has a basis and a
coefficient vector, the coefficient vector is exactly the least-squares
solution over the weighted design matrix of the unpruned basis columns, and
its length is `basis_.plen()`. -/
theorem C8_coef_from_lstsq_length_plen (st : Earth) (X y : ArrayInput)
    (w : Option ArrayInput) (lv : List Nat) (Xf : FMat) (yf wf : List PyFloat)
    (h : Earth._scrub { st with linvars_ := some lv } X y w = .ok (Xf, yf, wf)) :
    ∃ b : Basis, (Earth.fit st X y w lv).1.basis_ = some b ∧
      (Earth.fit st X y w lv).1.coef_ =
        some (np_lstsq (apply_weights_2d (b.transformQ Xf.toQMat)
            (wf.map PyFloat.toQ))
          (apply_weights_1d (yf.map PyFloat.toQ) (wf.map PyFloat.toQ))) ∧
      ∀ c, (Earth.fit st X y w lv).1.coef_ = some c → c.length = b.plen := by
  rw [fit_ok h]
  refine ⟨_, rfl, rfl, ?_⟩
  intro c hcc
  have hc2 := (Option.some.injEq _ _).mp hcc
  rw [← hc2]
  exact (np_lstsq_length _ _).trans rfl

/-- Witness for C8 at a concrete successful fit. -/
theorem C8_witness :
    ∃ b : Basis,
      (Earth.fit ({} : Earth) (.dense2 [[.finite 1], [.finite 1]])
          (.dense1 [.finite 1, .finite 3]) none []).1.basis_ = some b ∧
      (Earth.fit ({} : Earth) (.dense2 [[.finite 1], [.finite 1]])
          (.dense1 [.finite 1, .finite 3]) none []).1.coef_ =
        some (np_lstsq (apply_weights_2d
            (b.transformQ (FMat.toQMat ⟨[[.finite 1], [.finite 1]], 1⟩))
            ([PyFloat.finite 1, PyFloat.finite 1].map PyFloat.toQ))
          (apply_weights_1d ([PyFloat.finite 1, PyFloat.finite 3].map PyFloat.toQ)
            ([PyFloat.finite 1, PyFloat.finite 1].map PyFloat.toQ))) ∧
      ∀ c, (Earth.fit ({} : Earth) (.dense2 [[.finite 1], [.finite 1]])
          (.dense1 [.finite 1, .finite 3]) none []).1.coef_ = some c →
        c.length = b.plen :=
  C8_coef_from_lstsq_length_plen {} (.dense2 [[.finite 1], [.finite 1]])
    (.dense1 [.finite 1, .finite 3]) none [] ⟨[[.finite 1], [.finite 1]], 1⟩
    [.finite 1, .finite 3] [.finite 1, .finite 1] (by decide)

/-! ## Congruence lemmas for the zero-weight claim -/

theorem filter_sampleRows_congr :
    ∀ (ws ys ys2 : List ℚ) (xs xs2 : List (List ℚ)),
      xs.length = ws.length → xs2.length = ws.length →
      ys.length = ws.length → ys2.length = ws.length →
      (∀ i, ws.getD i 0 ≠ 0 → xs.get? i = xs2.get? i ∧ ys.get? i = ys2.get? i) →
      (xs.zip (ys.zip ws)).filter (fun r => r.2.2 ≠ 0)
        = (xs2.zip (ys2.zip ws)).filter (fun r => r.2.2 ≠ 0) := by
  intro ws
  induction ws with
  | nil =>
      intro ys ys2 xs xs2 h1 h2 h3 h4 hag
      simp [List.zip_nil_right]
  | cons w wt ih =>
      intro ys ys2 xs xs2 h1 h2 h3 h4 hag
      cases xs with
      | nil => simp at h1
      | cons x xt =>
        cases xs2 with
        | nil => simp at h2
        | cons x2 xt2 =>
          cases ys with
          | nil => simp at h3
          | cons yy yt =>
            cases ys2 with
            | nil => simp at h4
            | cons yy2 yt2 =>
              have ht := ih yt yt2 xt xt2 (by simpa using h1) (by simpa using h2)
                (by simpa using h3) (by simpa using h4)
                (fun i hi => hag (i + 1) (by simpa using hi))
              simp only [List.zip_cons_cons, List.filter_cons]
              by_cases hw : w ≠ 0
              · obtain ⟨hx0, hy0⟩ := hag 0 (by simpa using hw)
                simp only [List.get?] at hx0 hy0
                injection hx0 with hx0
                injection hy0 with hy0
                subst hx0; subst hy0
                simpa [hw] using ht
              · rw [not_not] at hw
                subst hw
                simpa using ht

theorem zipWith_weight_congr :
    ∀ (ws ys ys2 : List ℚ), ys.length = ys2.length →
      (∀ i, ws.getD i 0 ≠ 0 → ys.get? i = ys2.get? i) →
      List.zipWith (fun wi yi => wi * yi) ws ys
        = List.zipWith (fun wi yi => wi * yi) ws ys2 := by
  intro ws
  induction ws with
  | nil => intro ys ys2 hlen hag; simp
  | cons w wt ih =>
      intro ys ys2 hlen hag
      cases ys with
      | nil =>
          cases ys2 with
          | nil => rfl
          | cons b bt => simp at hlen
      | cons yy yt =>
        cases ys2 with
        | nil => simp at hlen
        | cons yy2 yt2 =>
          have ht := ih yt yt2 (by simpa using hlen)
            (fun i hi => hag (i + 1) (by simpa using hi))
          simp only [List.zipWith_cons_cons]
          by_cases hw : w = 0
          · subst hw
            rw [zero_mul, zero_mul, ht]
          · obtain hy0 := hag 0 (by simpa using hw)
            simp only [List.get?] at hy0
            injection hy0 with hy0
            subst hy0
            rw [ht]

theorem map_zero_mul (r : List ℚ) :
    r.map (fun v => 0 * v) = List.replicate r.length 0 := by
  induction r with
  | nil => rfl
  | cons a t ih => simp [ih, List.replicate_succ]

theorem zipWith_rowscale_congr :
    ∀ (ws : List ℚ) (rs rs2 : List (List ℚ)), rs.length = rs2.length →
      (∀ i, ws.getD i 0 ≠ 0 → rs.get? i = rs2.get? i) →
      (∀ i r r2, rs.get? i = some r → rs2.get? i = some r2 →
        r.length = r2.length) →
      List.zipWith (fun wi row => row.map (fun v => wi * v)) ws rs
        = List.zipWith (fun wi row => row.map (fun v => wi * v)) ws rs2 := by
  intro ws
  induction ws with
  | nil => intro rs rs2 hlen hag hrl; simp
  | cons w wt ih =>
      intro rs rs2 hlen hag hrl
      cases rs with
      | nil =>
          cases rs2 with
          | nil => rfl
          | cons b bt => simp at hlen
      | cons r rt =>
        cases rs2 with
        | nil => simp at hlen
        | cons r2 rt2 =>
          have ht := ih rt rt2 (by simpa using hlen)
            (fun i hi => hag (i + 1) (by simpa using hi))
            (fun i a a2 ha ha2 => hrl (i + 1) a a2 (by simpa using ha)
              (by simpa using ha2))
          simp only [List.zipWith_cons_cons]
          by_cases hw : w = 0
          · subst hw
            rw [map_zero_mul, map_zero_mul, hrl 0 r r2 rfl rfl, ht]
          · obtain hr0 := hag 0 (by simpa using hw)
            simp only [List.get?] at hr0
            injection hr0 with hr0
            subst hr0
            rw [ht]

/-- C9: two successful `fit` calls on data that share the sample weights and
agree on every row of nonzero weight (the inputs differ only in the `X` and
`y` values of zero-weight rows) produce the same basis and the same
coefficient vector.  The modelled forward and pruning passes depend only on
the rows of nonzero weight, and the weighting step of `linear_fit` nulls the
zero-weight rows of the design matrix and response before the least-squares
solve, so the solver sees identical inputs. -/
theorem C9_zero_weight_rows_immaterial (st : Earth) (X y X2 y2 : ArrayInput)
    (w : Option ArrayInput) (lv : List Nat)
    (Xf Xf2 : FMat) (yf yf2 wf : List PyFloat)
    (h1 : Earth._scrub { st with linvars_ := some lv } X y w = .ok (Xf, yf, wf))
    (h2 : Earth._scrub { st with linvars_ := some lv } X2 y2 w = .ok (Xf2, yf2, wf))
    (hnc : Xf2.ncols = Xf.ncols)
    (hagree : ∀ i, (wf.map PyFloat.toQ).getD i 0 ≠ 0 →
        Xf.toQMat.rows.get? i = Xf2.toQMat.rows.get? i ∧
        (yf.map PyFloat.toQ).get? i = (yf2.map PyFloat.toQ).get? i) :
    (Earth.fit st X y w lv).1.basis_ = (Earth.fit st X2 y2 w lv).1.basis_ ∧
    (Earth.fit st X y w lv).1.coef_ = (Earth.fit st X2 y2 w lv).1.coef_ ∧
    (Earth.fit st X y w lv).2 = none ∧ (Earth.fit st X2 y2 w lv).2 = none := by
  obtain ⟨l1, l2, -, -, -, -, -, -⟩ := scrub_ok_facts h1
  obtain ⟨m1, m2, -, -, -, -, -, -⟩ := scrub_ok_facts h2
  rw [fit_ok h1, fit_ok h2]
  have hlx : Xf.toQMat.rows.length = (wf.map PyFloat.toQ).length := by
    simp [FMat.toQMat, ← l1, l2]
  have hlx2 : Xf2.toQMat.rows.length = (wf.map PyFloat.toQ).length := by
    simp [FMat.toQMat, ← m1, m2]
  have hly : (yf.map PyFloat.toQ).length = (wf.map PyFloat.toQ).length := by
    simp [l2]
  have hly2 : (yf2.map PyFloat.toQ).length = (wf.map PyFloat.toQ).length := by
    simp [m2]
  have hfilt : (sampleRows Xf.toQMat (yf.map PyFloat.toQ) (wf.map PyFloat.toQ)).filter
      (fun r => r.2.2 ≠ 0)
      = (sampleRows Xf2.toQMat (yf2.map PyFloat.toQ) (wf.map PyFloat.toQ)).filter
        (fun r => r.2.2 ≠ 0) := by
    unfold sampleRows
    exact filter_sampleRows_congr (wf.map PyFloat.toQ) (yf.map PyFloat.toQ)
      (yf2.map PyFloat.toQ) Xf.toQMat.rows Xf2.toQMat.rows hlx hlx2 hly hly2 hagree
  have hncq : Xf2.toQMat.ncols = Xf.toQMat.ncols := hnc
  have hbasis : forwardPassModel Xf2.toQMat.ncols
        (sampleRows Xf2.toQMat (yf2.map PyFloat.toQ) (wf.map PyFloat.toQ))
      = forwardPassModel Xf.toQMat.ncols
        (sampleRows Xf.toQMat (yf.map PyFloat.toQ) (wf.map PyFloat.toQ)) := by
    unfold forwardPassModel
    rw [hncq, hfilt]
  have hyw : apply_weights_1d (yf2.map PyFloat.toQ) (wf.map PyFloat.toQ)
      = apply_weights_1d (yf.map PyFloat.toQ) (wf.map PyFloat.toQ) := by
    unfold apply_weights_1d
    exact (zipWith_weight_congr (wf.map PyFloat.toQ) (yf.map PyFloat.toQ)
      (yf2.map PyFloat.toQ) (hly.trans hly2.symm)
      (fun i hi => (hagree i hi).2)).symm
  have hB : ∀ b : Basis,
      apply_weights_2d (b.transformQ Xf2.toQMat) (wf.map PyFloat.toQ)
      = apply_weights_2d (b.transformQ Xf.toQMat) (wf.map PyFloat.toQ) := by
    intro b
    unfold apply_weights_2d Basis.transformQ
    refine congrArg (fun rr => QMat.mk rr b.plen) ?_
    refine (zipWith_rowscale_congr (wf.map PyFloat.toQ)
      (Xf.toQMat.rows.map b.evalRow) (Xf2.toQMat.rows.map b.evalRow)
      (by simp [hlx.trans hlx2.symm]) ?_ ?_).symm
    · intro i hi
      rw [List.get?_map, List.get?_map, (hagree i hi).1]
    · intro i r r2 hr hr2
      rw [List.get?_map] at hr hr2
      cases hq1 : Xf.toQMat.rows.get? i with
      | none => rw [hq1] at hr; cases hr
      | some xr =>
          rw [hq1] at hr
          cases hq2 : Xf2.toQMat.rows.get? i with
          | none => rw [hq2] at hr2; cases hr2
          | some xr2 =>
              rw [hq2] at hr2
              injection hr with hr
              injection hr2 with hr2
              rw [← hr, ← hr2, Basis.evalRow_length, Basis.evalRow_length]
  refine ⟨?_, ?_, rfl, rfl⟩
  · show some (pruningPassModel (forwardPassModel Xf.toQMat.ncols _) _)
      = some (pruningPassModel (forwardPassModel Xf2.toQMat.ncols _) _)
    unfold pruningPassModel
    rw [hbasis]
  · show some (np_lstsq _ _) = some (np_lstsq _ _)
    unfold pruningPassModel
    rw [hbasis, hyw, hB]

/-- Witness for C9: two data sets that differ only in the second row, which
carries weight 0, fit to the same basis and coefficients. -/
theorem C9_witness :
    (Earth.fit ({} : Earth) (.dense2 [[.finite 1], [.finite 2]])
        (.dense1 [.finite 1, .finite 2])
        (some (.dense1 [.finite 1, .finite 0])) []).1.basis_
      = (Earth.fit ({} : Earth) (.dense2 [[.finite 1], [.finite 7]])
        (.dense1 [.finite 1, .finite 9])
        (some (.dense1 [.finite 1, .finite 0])) []).1.basis_ ∧
    (Earth.fit ({} : Earth) (.dense2 [[.finite 1], [.finite 2]])
        (.dense1 [.finite 1, .finite 2])
        (some (.dense1 [.finite 1, .finite 0])) []).1.coef_
      = (Earth.fit ({} : Earth) (.dense2 [[.finite 1], [.finite 7]])
        (.dense1 [.finite 1, .finite 9])
        (some (.dense1 [.finite 1, .finite 0])) []).1.coef_ ∧
    (Earth.fit ({} : Earth) (.dense2 [[.finite 1], [.finite 2]])
        (.dense1 [.finite 1, .finite 2])
        (some (.dense1 [.finite 1, .finite 0])) []).2 = none ∧
    (Earth.fit ({} : Earth) (.dense2 [[.finite 1], [.finite 7]])
        (.dense1 [.finite 1, .finite 9])
        (some (.dense1 [.finite 1, .finite 0])) []).2 = none :=
  C9_zero_weight_rows_immaterial {} (.dense2 [[.finite 1], [.finite 2]])
    (.dense1 [.finite 1, .finite 2]) (.dense2 [[.finite 1], [.finite 7]])
    (.dense1 [.finite 1, .finite 9]) (some (.dense1 [.finite 1, .finite 0])) []
    ⟨[[.finite 1], [.finite 2]], 1⟩ ⟨[[.finite 1], [.finite 7]], 1⟩
    [.finite 1, .finite 2] [.finite 1, .finite 9] [.finite 1, .finite 0]
    (by decide) (by decide) rfl
    (fun i hi => by
      match i with
      | 0 => exact ⟨rfl, rfl⟩
      | 1 => exact absurd rfl hi
      | n + 2 => exact absurd rfl hi)

end PyEarth
